import Mathlib

/-!
Verification of the pure calendar-grid/date-math module of the `magot`
calendar component (`src/components/Calendar/Calendar.tsx`).

Dates are embedded as absolute day numbers (days since 0000-01-01 of the
proleptic Gregorian calendar), which is the value semantics of a JavaScript
`Date` truncated to calendar-day precision.  Machine arithmetic in the
source is JavaScript number arithmetic on integer values; `Math.floor(x/n)`
is embedded as `Int.fdiv x n`.
-/

namespace Magot

/-- Gregorian leap-year test on the mathematical year, as in the
ECMAScript `DaysInYear` specification. -/
def isLeap (y : Int) : Bool :=
  (y % 4 == 0 && y % 100 != 0) || y % 400 == 0

/-- Cumulative day count before month `m` (0-indexed) in a non-leap year. -/
def cumDays : Nat → Int
  | 0 => 0 | 1 => 31 | 2 => 59 | 3 => 90 | 4 => 120 | 5 => 151
  | 6 => 181 | 7 => 212 | 8 => 243 | 9 => 273 | 10 => 304 | _ => 334

/-- Number of days from 0000-01-01 to `y`-01-01 in the proleptic Gregorian
calendar, valid for every integer year. -/
def daysBeforeYear (y : Int) : Int :=
  365 * y + (y + 3).fdiv 4 - (y + 99).fdiv 100 + (y + 399).fdiv 400

/-- Absolute day number of the first day of month `m` (0-indexed, `m < 12`)
of year `y`. -/
def firstOfMonth (y : Int) (m : Nat) : Int :=
  daysBeforeYear y + cumDays m + (if 2 ≤ m ∧ isLeap y then 1 else 0)

/-- The ECMAScript `MakeDay(year, month, date)` operation backing
`new Date(year, month, day)`: the month is normalised into the year by
floored division, and the day offsets from day 1 of that month, so day
numbers `≤ 0` or past the month length roll over to adjacent months. -/
def makeDay (y m d : Int) : Int :=
  firstOfMonth (y + m.fdiv 12) (m.emod 12).toNat + (d - 1)

/-- `Date.prototype.getDay`: day of week, 0 = Sunday .. 6 = Saturday.
Day 0 (0000-01-01) was a Saturday, hence the offset 6. -/
def getDay (t : Int) : Int := (t + 6).emod 7

/-- Modelled from the spec: `dateUtil.getFirstDateOfMonth(year, month)`
(the `dateUtil` module is not part of the reviewed sources) returns the
date of day 1 of the target month, used to "determine the weekday index of
day 1 of the target month". -/
def getFirstDateOfMonth (year month : Int) : Int := makeDay year month 1

/-- Modelled from the spec: `dateUtil.lessThanDate(a, b)` is the
""Is before": strict chronological ordering by calendar date" predicate. -/
def lessThanDate (a b : Int) : Bool := a < b

/-- The sequence of `datesByWeek[week].push(date)` operations performed by
`getDatesByWeek`, in loop order: the loop runs `i` from `start` to
`start + 41` and pushes `new Date(year, month, i + 1)` onto row
`Math.floor((i + startDelta) / 7)`. -/
def datePushes (year month weekStart : Int) : List (Int × Int) :=
  let firstDayOfWeek := getDay (getFirstDateOfMonth year month)
  let startDelta := firstDayOfWeek - weekStart
  let start := if 0 < startDelta then -startDelta else 0
  (List.range 42).map (fun (k : Nat) =>
    ((start + (k : Int) + startDelta).fdiv 7, makeDay year month (start + (k : Int) + 1)))

/-- `getDatesByWeek` from `Calendar.tsx`.  The returned JavaScript array
contains the rows at indices `0 .. lastWeek`; row indices are assigned in
nondecreasing order, so the array length is `lastWeek + 1` (and pushes with
a negative row index land on plain object properties, outside the array). -/
def getDatesByWeek (year month weekStart : Int) : List (List Int) :=
  let firstDayOfWeek := getDay (getFirstDateOfMonth year month)
  let startDelta := firstDayOfWeek - weekStart
  let start := if 0 < startDelta then -startDelta else 0
  let lastWeek := (start + 41 + startDelta).fdiv 7
  (List.range (lastWeek + 1).toNat).map (fun (r : Nat) =>
    ((datePushes year month weekStart).filter (fun p => p.1 = (r : Int))).map Prod.snd)

/-- `getDecade` from `Calendar.tsx`.  The implicit wall-clock read
`new Date().getFullYear()` is injected as the parameter `thisYear`. -/
def getDecade (thisYear year : Int) : Int × Int :=
  if year ≤ thisYear then
    let diff := thisYear - year + 1
    let d := diff.fdiv 10
    let e := thisYear - d * 10
    (e - 9, e)
  else
    let diff := year - thisYear + 1
    let d := diff.fdiv 10
    let s := thisYear + d * 10 + 1
    (s, s + 9)

/-- `getYearsByDecade` from `Calendar.tsx`: pushes every year from
`decade[0] - 1` up to `decade[1] + 1` inclusive. -/
def getYearsByDecade (thisYear year : Int) : List Int :=
  let decade := getDecade thisYear year
  let lo := decade.1 - 1
  let hi := decade.2 + 1
  (List.range (hi - lo + 1).toNat).map (fun (k : Nat) => lo + (k : Int))

/-- `isDisabledDate` from `Calendar.tsx`. -/
def isDisabledDate (date today : Int) (disableTodayAgo : Bool)
    (disabledDate : Option (Int → Bool)) : Bool :=
  if (disabledDate.map (fun f => f date)).getD false then true
  else if disableTodayAgo && lessThanDate date today then true
  else false

/-- The decade algorithm as stated in the specification §4.2, word for
word: the spec-side definition used for the refinement claim. -/
def decadeSpec (t y : Int) : Int × Int :=
  if y ≤ t then
    let diff := t - y + 1
    let d := diff.fdiv 10
    let e := t - d * 10
    (e - 9, e)
  else
    let diff := y - t + 1
    let d := diff.fdiv 10
    let s := t + d * 10 + 1
    (s, s + 9)

/-! ### Helper lemmas -/

/-- `Math.floor(a / 10)` agrees with Euclidean division for the positive
divisor 10. -/
theorem fdiv_ten (a : Int) : a.fdiv 10 = a / 10 :=
  Int.fdiv_eq_ediv a (by norm_num)

/-- `Math.floor(a / 7)` agrees with Euclidean division for the positive
divisor 7. -/
theorem fdiv_seven (a : Int) : a.fdiv 7 = a / 7 :=
  Int.fdiv_eq_ediv a (by norm_num)

/-- `makeDay` is day 1 of the month shifted by `d - 1` days: the day
argument is a pure offset, which is how out-of-range day numbers roll over
to adjacent months. -/
theorem makeDay_shift (y m d : Int) : makeDay y m d = makeDay y m 1 + (d - 1) := by
  simp [makeDay]

/-- The weekday index is always in `[0, 7)`. -/
theorem getDay_bounds (t : Int) : 0 ≤ getDay t ∧ getDay t < 7 :=
  ⟨Int.emod_nonneg _ (by norm_num), Int.emod_lt_of_pos _ (by norm_num)⟩

/-- Shared helper: both branches of `getDecade` return a window whose end
is its start plus 9. -/
theorem decade_end_eq (t y : Int) : (getDecade t y).2 = (getDecade t y).1 + 9 := by
  unfold getDecade
  split <;> simp

/-- Shared helper: `find?` on `range' s n` returns the least index
satisfying the predicate. -/
theorem find?_range'_eq (p : Nat → Bool) (k : Nat) :
    ∀ (s n : Nat), s ≤ k → k < s + n → p k = true →
      (∀ j, s ≤ j → j < k → p j = false) →
      (List.range' s n).find? p = some k := by
  intro s n
  induction n generalizing s with
  | zero =>
    intro h1 h2 _ _
    omega
  | succ n ih =>
    intro h1 h2 h3 h4
    rw [List.range'_succ]
    by_cases hs : s = k
    · subst hs
      rw [List.find?_cons_of_pos _ (by simp [h3])]
    · have hps : p s = false := h4 s le_rfl (by omega)
      rw [List.find?_cons_of_neg _ (by simp [hps])]
      exact ih (s + 1) (by omega) (by omega) h3 (fun j hj1 hj2 => h4 j (by omega) hj2)

/-- Shared helper: `find?` on `range n` returns the least index satisfying
the predicate. -/
theorem find?_range_eq (p : Nat → Bool) (n k : Nat) (h1 : k < n) (h2 : p k = true)
    (h3 : ∀ j, j < k → p j = false) : (List.range n).find? p = some k := by
  rw [List.range_eq_range']
  exact find?_range'_eq p k 0 n (Nat.zero_le _) (by omega) h2 (fun j _ hj => h3 j hj)

/-- Shared helper: the first push onto row 0 of the week grid, for an
arbitrary loop origin `start` and offset `δ`, is the push at the least
iteration `k₀` whose week index is 0; its date is day `start + k₀ + 1`. -/
theorem row0_head_general (year month start δ target : Int) (k₀ : Nat)
    (hk : k₀ < 42)
    (h0 : start + (k₀ : Int) + δ = 0)
    (htarget : start + (k₀ : Int) + 1 = target)
    (hneg : ∀ j : Nat, j < k₀ →
      -7 ≤ start + (j : Int) + δ ∧ start + (j : Int) + δ < 0) :
    ((((List.range 42).map (fun (k : Nat) =>
        ((start + (k : Int) + δ).fdiv 7,
          makeDay year month (start + (k : Int) + 1)))).filter
        (fun p => p.1 = (0 : Int))).map Prod.snd).head? =
      some (makeDay year month target) := by
  rw [List.head?_map, List.filter_head?, List.find?_map]
  have hcomp : ((fun p : Int × Int => decide (p.1 = (0 : Int))) ∘
      (fun (k : Nat) => ((start + (k : Int) + δ).fdiv 7,
        makeDay year month (start + (k : Int) + 1)))) =
      fun (k : Nat) => decide ((start + (k : Int) + δ).fdiv 7 = 0) := rfl
  rw [hcomp, find?_range_eq _ 42 k₀ hk
    (by simp only [fdiv_seven, decide_eq_true_eq, h0]; norm_num)
    (fun j hj => by
      have hb := hneg j hj
      simp only [fdiv_seven, decide_eq_false_iff_not]
      omega)]
  show some (makeDay year month (start + (k₀ : Int) + 1)) = some (makeDay year month target)
  rw [htarget]

/-- Shared helper: the first date pushed onto row 0 by `getDatesByWeek` is
day `1 - (firstDayOfWeek - weekStart)` of the target month, in both the
`startDelta > 0` and `startDelta ≤ 0` regimes. -/
theorem datePushes_row0_head (year month weekStart : Int)
    (hw0 : 0 ≤ weekStart) (hw1 : weekStart ≤ 6) :
    (((datePushes year month weekStart).filter (fun p => p.1 = (0 : Int))).map
        Prod.snd).head? =
      some (makeDay year month
        (1 - (getDay (getFirstDateOfMonth year month) - weekStart))) := by
  have hF := getDay_bounds (getFirstDateOfMonth year month)
  simp only [datePushes]
  by_cases hd : 0 < getDay (getFirstDateOfMonth year month) - weekStart
  · rw [if_pos hd]
    exact row0_head_general year month _ _ _ 0 (by omega)
      (by push_cast; ring) (by push_cast; ring)
      (fun j hj => absurd hj (Nat.not_lt_zero j))
  · rw [if_neg hd]
    exact row0_head_general year month _ _ _
      (weekStart - getDay (getFirstDateOfMonth year month)).toNat (by omega)
      (by omega) (by omega)
      (fun j hj => by constructor <;> omega)

/-- Shared helper: `isDisabledDate` as a propositional disjunction. -/
theorem isDisabledDate_iff (date today : Int) (flag : Bool)
    (pred : Option (Int → Bool)) :
    isDisabledDate date today flag pred = true ↔
      ((∃ f, pred = some f ∧ f date = true) ∨ (flag = true ∧ date < today)) := by
  cases pred with
  | none => simp [isDisabledDate, lessThanDate]
  | some f =>
    by_cases hf : f date = true <;>
      simp [isDisabledDate, lessThanDate, hf]

/-! ### Claim theorems -/

/-- C2: `getDecade` computes exactly the branch formulas of the claim
(embodied word for word in `decadeSpec`), and in particular, with the
current year `T = 2024`, `getDecade 2024` gives `[2015, 2024]` and
`getDecade 2030` gives `[2025, 2034]`. -/
theorem getDecade_matches_spec :
    (∀ t y : Int, getDecade t y = decadeSpec t y) ∧
      getDecade 2024 2024 = (2015, 2024) ∧ getDecade 2024 2030 = (2025, 2034) :=
  ⟨fun _ _ => rfl, by decide, by decide⟩

/-- C3 counterexample: at `T = 2024`, `Y = 2024`, stepping the year by 10
does not shift the decade window by 10: `getDecade 2024 2034 = (2035, 2044)`
while `getDecade 2024 2024 = (2015, 2024)`. -/
theorem getDecade_shift_counterexample :
    ¬(getDecade 2024 (2024 + 10) =
        ((getDecade 2024 2024).1 + 10, (getDecade 2024 2024).2 + 10)) := by
  decide

/-- C3 amended: the decade window slides by exactly 10 years under
`Y ↦ Y + 10` if and only if `Y` is none of `T`, `T - 1`, `T - 9` (with `T`
the current year); at those three years the window instead jumps by
exactly 20 years.  Hence the year-mode header buttons move the displayed
window by exactly one decade except when stepping forward from a displayed
year in `{T - 9, T - 1, T}` or, symmetrically, stepping back to one. -/
theorem getDecade_shift_iff (t y : Int) :
    (getDecade t (y + 10) = ((getDecade t y).1 + 10, (getDecade t y).2 + 10) ↔
        (y ≠ t ∧ y ≠ t - 1 ∧ y ≠ t - 9)) ∧
      ((y = t ∨ y = t - 1 ∨ y = t - 9) →
        getDecade t (y + 10) = ((getDecade t y).1 + 20, (getDecade t y).2 + 20)) := by
  simp only [getDecade]
  split_ifs with h1 h2 <;>
    simp only [fdiv_ten, Prod.mk.injEq, Prod.fst, Prod.snd] <;>
    omega

/-- C3 witness: at `T = 2024` the failure year `Y = 2024` jumps the window
by two decades, from `(2015, 2024)` to `(2035, 2044)`. -/
theorem getDecade_shift_iff_witness :
    getDecade 2024 (2024 + 10) =
      ((getDecade 2024 2024).1 + 20, (getDecade 2024 2024).2 + 20) :=
  (getDecade_shift_iff 2024 2024).2 (Or.inl rfl)

/-- C7: in both branches the decade window spans exactly 10 consecutive
years: its end equals its start plus 9. -/
theorem getDecade_span (t y : Int) : (getDecade t y).2 = (getDecade t y).1 + 9 :=
  decade_end_eq t y

/-- C8: calling `getDecade` with the current year `T` itself yields a
window containing `T`. -/
theorem getDecade_contains_current (t : Int) :
    (getDecade t t).1 ≤ t ∧ t ≤ (getDecade t t).2 := by
  have key : getDecade t t = (t - 9, t) := by
    simp only [getDecade, le_refl, if_true]
    rw [show t - t + 1 = (1 : Int) from by ring,
      show (1 : Int).fdiv 10 = 0 from by decide]
    norm_num
  rw [key]
  omega

/-- C10: in both branches the decade window is aligned to the position of
the current year in the decade cycle: `end ≡ T (mod 10)` and
`start ≡ T + 1 (mod 10)`. -/
theorem getDecade_mod_alignment (t y : Int) :
    ((getDecade t y).2 - t) % 10 = 0 ∧ ((getDecade t y).1 - (t + 1)) % 10 = 0 := by
  unfold getDecade
  split
  · generalize (t - y + 1).fdiv 10 = d
    simp only
    omega
  · generalize (y - t + 1).fdiv 10 = d
    simp only
    omega

/-- C5: `getYearsByDecade` returns exactly 12 strictly increasing years,
the consecutive range from `getDecade.start - 1` to `getDecade.end + 1`. -/
theorem getYearsByDecade_window (t y : Int) :
    (getYearsByDecade t y).length = 12 ∧
      List.Pairwise (· < ·) (getYearsByDecade t y) ∧
      getYearsByDecade t y =
        (List.range 12).map (fun (k : Nat) => (getDecade t y).1 - 1 + (k : Int)) := by
  have hspan := decade_end_eq t y
  have hcount : ((getDecade t y).2 + 1 - ((getDecade t y).1 - 1) + 1).toNat = 12 := by
    omega
  have heq : getYearsByDecade t y =
      (List.range 12).map (fun (k : Nat) => (getDecade t y).1 - 1 + (k : Int)) := by
    unfold getYearsByDecade
    simp only
    rw [hcount]
  refine ⟨?_, ?_, heq⟩
  · rw [heq, List.length_map, List.length_range]
  · rw [heq]
    refine List.Pairwise.map _ ?_ (List.pairwise_lt_range 12)
    intro a b hab
    omega

/-- C6: `isDisabledDate` is true iff the supplied predicate accepts the
date or the `disableTodayAgo` flag is set and the date is strictly before
today; with the flag set and today = 2024-06-15, 2024-06-14 is disabled for
every predicate, while 2024-06-16 is disabled exactly when the predicate
accepts it. -/
theorem isDisabledDate_resolution :
    (∀ (date today : Int) (flag : Bool) (pred : Option (Int → Bool)),
        isDisabledDate date today flag pred = true ↔
          ((∃ f, pred = some f ∧ f date = true) ∨ (flag = true ∧ date < today))) ∧
      (∀ pred, isDisabledDate (makeDay 2024 5 14) (makeDay 2024 5 15) true pred = true) ∧
      (∀ pred, isDisabledDate (makeDay 2024 5 16) (makeDay 2024 5 15) true pred = true ↔
          (∃ f, pred = some f ∧ f (makeDay 2024 5 16) = true)) := by
  refine ⟨isDisabledDate_iff, ?_, ?_⟩
  · intro pred
    rw [isDisabledDate_iff]
    exact Or.inr ⟨rfl, by decide⟩
  · intro pred
    rw [isDisabledDate_iff]
    have h : ¬ makeDay 2024 5 16 < makeDay 2024 5 15 := by decide
    constructor
    · rintro (hf | ⟨_, hlt⟩)
      · exact hf
      · exact absurd hlt h
    · exact Or.inl

/-- C9: the loop body of `getDatesByWeek` runs exactly 42 times for every
integer input, including `weekStart` outside `[0, 6]`; such input yields a
well-defined but misaligned grid (here `weekStart = 9` gives 5 rows with a
short last row) rather than an error. -/
theorem getDatesByWeek_total :
    (∀ year month weekStart : Int, (datePushes year month weekStart).length = 42) ∧
      (getDatesByWeek 2024 0 9).map List.length = [7, 7, 7, 7, 6] := by
  constructor
  · intro year month weekStart
    simp [datePushes]
  · decide

/-- C1 (code evaluation at the failing input): for September 2024 with
`weekStart = 1`, the grid has a last row of only 6 dates (41 dates in the
array), because the first loop iteration pushes September 1 onto row index
−1, which on a JavaScript array is a plain property, not an element. -/
theorem getDatesByWeek_shape_bug :
    (getDatesByWeek 2024 8 1).map List.length = [7, 7, 7, 7, 7, 6] ∧
      (datePushes 2024 8 1).head? = some (-1, getFirstDateOfMonth 2024 8) := by
  constructor <;> decide

/-- C4: for every year, month in `[0, 11]` and `weekStart` in `[0, 6]`,
the grid is nonempty, its first row is nonempty, and its first cell
(row 0, column 0) falls on day-of-week `weekStart`. -/
theorem getDatesByWeek_first_cell (year month weekStart : Int)
    (_hm0 : 0 ≤ month) (_hm1 : month ≤ 11)
    (hw0 : 0 ≤ weekStart) (hw1 : weekStart ≤ 6) :
    getDatesByWeek year month weekStart ≠ [] ∧
      (getDatesByWeek year month weekStart).headI ≠ [] ∧
      getDay ((getDatesByWeek year month weekStart).headI.headI) = weekStart := by
  have hF := getDay_bounds (getFirstDateOfMonth year month)
  have hrow0 := datePushes_row0_head year month weekStart hw0 hw1
  have hgrid : getDatesByWeek year month weekStart =
      (List.range 6).map (fun (r : Nat) =>
        ((datePushes year month weekStart).filter
          (fun p => p.1 = (r : Int))).map Prod.snd) := by
    simp only [getDatesByWeek]
    have h5 : ((if 0 < getDay (getFirstDateOfMonth year month) - weekStart then
        -(getDay (getFirstDateOfMonth year month) - weekStart) else 0) + 41 +
        (getDay (getFirstDateOfMonth year month) - weekStart)).fdiv 7 = 5 := by
      by_cases hd : 0 < getDay (getFirstDateOfMonth year month) - weekStart
      · rw [if_pos hd, fdiv_seven]
        omega
      · rw [if_neg hd, fdiv_seven]
        omega
    rw [h5]
    rfl
  rw [hgrid]
  rw [show List.range 6 = [0, 1, 2, 3, 4, 5] from rfl]
  simp only [List.map_cons, Nat.cast_zero]
  refine ⟨by simp, ?_, ?_⟩
  · simp only [List.headI_cons]
    cases hrl : ((datePushes year month weekStart).filter
        (fun p => p.1 = (0 : Int))).map Prod.snd with
    | nil => rw [hrl] at hrow0; simp at hrow0
    | cons a t => simp
  · simp only [List.headI_cons]
    cases hrl : ((datePushes year month weekStart).filter
        (fun p => p.1 = (0 : Int))).map Prod.snd with
    | nil => rw [hrl] at hrow0; simp at hrow0
    | cons a t =>
      rw [hrl] at hrow0
      simp only [List.head?_cons, Option.some.injEq] at hrow0
      simp only [List.headI_cons, hrow0]
      rw [makeDay_shift]
      show (makeDay year month 1 +
        (1 - ((makeDay year month 1 + 6) % 7 - weekStart) - 1) + 6) % 7 = weekStart
      generalize makeDay year month 1 = M
      omega

/-- C4 witness: for June 2024 with `weekStart = 0` (Sunday), the first
grid cell falls on a Sunday. -/
theorem getDatesByWeek_first_cell_witness :
    getDay ((getDatesByWeek 2024 5 0).headI.headI) = 0 :=
  (getDatesByWeek_first_cell 2024 5 0 (by decide) (by decide)
    (by decide) (by decide)).2.2

end Magot
